import Mathlib

/-!
Shallow embedding of `live_bot.py` (and the constants it reads from
`config.py`) from the crptshortfade repository.

Modelling conventions:
* prices and indicator values are rationals (`ℚ`); a pandas `NaN` /
  undefined indicator value is `Option.none`;
* timestamps and durations are integers counting minutes (UTC);
* a pandas DataFrame row that the evaluator consumes is an `AlignedRow`;
  the prepared frame (`_prep_live_data`'s result) is a `List AlignedRow`;
* the cooldown dict is an association list `List (String × ℤ)` with
  Python-dict update semantics (`dictSet`);
* the cooldown file on disk is `Option (List Char)` (`none` = missing
  file, `some s` = file with contents `s`); `json.load` / `json.dump`
  are modelled by an executable parser / printer over `List Char`.
-/

namespace CrptShortFade

/-- configuration constant `PRICE_BOOM_PCT = 0.1` from config.py. -/
def PRICE_BOOM_PCT : ℚ := 1/10

/-- configuration constant `PRICE_SLOWDOWN_PCT = 0.01` from config.py. -/
def PRICE_SLOWDOWN_PCT : ℚ := 1/100

/-- configuration constant `SL_ATR_MULT = 3` from config.py. -/
def SL_ATR_MULT : ℚ := 3

/-- configuration constant `PARTIAL_TP_ATR_MULT = 1.0` from config.py. -/
def PARTIAL_TP_ATR_MULT : ℚ := 1

/-- configuration constant `TRAIL_ATR_MULT = 1.5` from config.py. -/
def TRAIL_ATR_MULT : ℚ := 3/2

/-- configuration constant `RSI_ENTRY_MIN = 40.0` from config.py. -/
def RSI_ENTRY_MIN : ℚ := 40

/-- configuration constant `RSI_ENTRY_MAX = 65.0` from config.py. -/
def RSI_ENTRY_MAX : ℚ := 65

/-- configuration constant `SIGNAL_COOLDOWN_MINUTES = 30` from config.py,
as an integer number of minutes. -/
def SIGNAL_COOLDOWN_MINUTES : ℤ := 30

/-- configuration flag `SHOW_EMA_TREND_CONTEXT = True` from config.py. -/
def SHOW_EMA_TREND_CONTEXT : Bool := true

/-- configuration flag `SHOW_RSI_CONTEXT = True` from config.py. -/
def SHOW_RSI_CONTEXT : Bool := true

/-- configuration flag `SHOW_ADX_CONTEXT = True` from config.py. -/
def SHOW_ADX_CONTEXT : Bool := true

/-- configuration flag `SHOW_STRUCTURAL_CONTEXT = True` from config.py. -/
def SHOW_STRUCTURAL_CONTEXT : Bool := true

/-- configuration flag `SHOW_BTC_FAST_FILTER_CONTEXT = True` from config.py. -/
def SHOW_BTC_FAST_FILTER_CONTEXT : Bool := true

/-- the in-memory cooldown mapping (`cooldowns` in live_bot.py): a Python
dict from symbol to cooldown-expiry timestamp, modelled as an association
list with at most the usual dict access functions applied to it. -/
def Cooldowns := List (String × ℤ)

/-- dict read: `cooldowns[symbol]` guarded by `symbol in cooldowns`. -/
def dictLookup (m : Cooldowns) (s : String) : Option ℤ :=
  List.lookup s m

/-- dict write `m[s] = v`: replaces the value at an existing key in place,
otherwise appends the new key, exactly like a Python dict assignment. -/
def dictSet (m : Cooldowns) (s : String) (v : ℤ) : Cooldowns :=
  match m with
  | [] => [(s, v)]
  | (k, w) :: rest => if k = s then (s, v) :: rest else (k, w) :: dictSet rest s v

/-- the cooldown gate at the top of the symbol loop (live_bot.py lines
208-211): `symbol in cooldowns and now < cooldowns[symbol]`; this is the
spec's `is_cooling_down(mapping, symbol, now)`. -/
def is_cooling_down (m : Cooldowns) (s : String) (now : ℤ) : Bool :=
  match dictLookup m s with
  | none => false
  | some e => decide (now < e)

/-- the cooldown write after a signal (live_bot.py lines 298-299):
`cooldowns[symbol] = now + Timedelta(minutes=SIGNAL_COOLDOWN_MINUTES)`;
this is the spec's `place_on_cooldown(mapping, symbol, now, duration)`. -/
def place_on_cooldown (m : Cooldowns) (s : String) (now dur : ℤ) : Cooldowns :=
  dictSet m s (now + dur)

/-- the second cooldown gate (live_bot.py line 223):
`symbol in cooldowns and pd.to_datetime(cooldowns[symbol]) > last_candle.name`. -/
def cooldown_blocks_bar (m : Cooldowns) (s : String) (barTs : ℤ) : Bool :=
  match dictLookup m s with
  | none => false
  | some e => decide (barTs < e)

/-- one row of the prepared frame `df_prep` as consumed by the evaluator:
the base-timeframe bar timestamp (`last_candle.name`), its close, the two
lookback columns added by `_prep_live_data`, and the forward-filled
auxiliary indicator columns (`none` models a NaN entry). -/
structure AlignedRow where
  ts : ℤ
  close : ℚ
  close_boom_ago : ℚ
  close_slowdown_ago : ℚ
  atr_1h : Option ℚ
  ema_fast_4h : Option ℚ
  ema_slow_4h : Option ℚ
  rsi_4h : Option ℚ
  adx_4h : Option ℚ
  ret_30d : Option ℚ
deriving DecidableEq

/-- the BTC context row produced by `btc_df.reindex([last_candle.name],
method=ffill).iloc[0]` with `.get(..., nan)` reads: close and EMA of the
broader-market frame, possibly NaN. -/
structure BtcCtx where
  close : Option ℚ
  ema : Option ℚ
deriving DecidableEq

/-- line 226 of live_bot.py: `boom = (close - close_boom_ago) /
close_boom_ago >= cfg.PRICE_BOOM_PCT` at the evaluated row. -/
def boomFlag (row : AlignedRow) : Bool :=
  decide (PRICE_BOOM_PCT ≤ (row.close - row.close_boom_ago) / row.close_boom_ago)

/-- line 227 of live_bot.py: `slow = (close - close_slowdown_ago) /
close_slowdown_ago <= cfg.PRICE_SLOWDOWN_PCT` at the evaluated row. -/
def slowFlag (row : AlignedRow) : Bool :=
  decide ((row.close - row.close_slowdown_ago) / row.close_slowdown_ago ≤ PRICE_SLOWDOWN_PCT)

/-- line 228 of live_bot.py: `is_core_signal = boom and slow`. -/
def is_core_signal (row : AlignedRow) : Bool :=
  boomFlag row && slowFlag row

/-- NaN-propagating product `a * x` (any arithmetic on a NaN is NaN). -/
def nanMul (a : ℚ) (x : Option ℚ) : Option ℚ :=
  x.map (fun v => a * v)

/-- NaN-propagating sum `e + x`. -/
def nanAdd (e : ℚ) (x : Option ℚ) : Option ℚ :=
  x.map (fun v => e + v)

/-- NaN-propagating difference `e - x`. -/
def nanSub (e : ℚ) (x : Option ℚ) : Option ℚ :=
  x.map (fun v => e - v)

/-- one line of the "Contextual Analysis" block of the Telegram message
(live_bot.py lines 250-282), keeping the decision content of each line and
abstracting the float formatting. -/
inductive ContextLine where
  | emaTrend (ok : Bool)
  | emaTrendNA
  | rsiLine (v : ℚ) (ok : Bool)
  | adxLine (v : ℚ)
  | ret30dLine (v : ℚ)
  | btcLine (hot : Bool)
deriving DecidableEq

/-- the `context_lines` list built at live_bot.py lines 250-282: each
filter contributes a line only when its inputs are not NaN (and, for the
BTC filter, when the BTC frame was fetched); every line is advisory
content of the message. -/
def buildContext (row : AlignedRow) (btc : Option BtcCtx) : List ContextLine :=
  (if SHOW_EMA_TREND_CONTEXT then
    match row.ema_fast_4h, row.ema_slow_4h with
    | some f, some s => [ContextLine.emaTrend (decide (f < s))]
    | _, _ => [ContextLine.emaTrendNA]
   else []) ++
  (if SHOW_RSI_CONTEXT then
    match row.rsi_4h with
    | some v => [ContextLine.rsiLine v (decide (RSI_ENTRY_MIN ≤ v ∧ v ≤ RSI_ENTRY_MAX))]
    | none => []
   else []) ++
  (if SHOW_ADX_CONTEXT then
    match row.adx_4h with
    | some v => [ContextLine.adxLine v]
    | none => []
   else []) ++
  (if SHOW_STRUCTURAL_CONTEXT then
    match row.ret_30d with
    | some v => [ContextLine.ret30dLine v]
    | none => []
   else []) ++
  (if SHOW_BTC_FAST_FILTER_CONTEXT then
    match btc with
    | some b =>
      match b.close, b.ema with
      | some p, some e => [ContextLine.btcLine (decide (e < p))]
      | _, _ => []
    | none => []
   else [])

/-- the content of the Telegram opportunity message (live_bot.py lines
240-294): the entry price and the three ATR-derived trade parameters as
computed at lines 244-248 (NaN-propagating, since `atr_value` defaults to
`float(nan)` when the column is absent), plus the context block. -/
structure Report where
  symbol : String
  entry_price : ℚ
  stop_loss : Option ℚ
  partial_tp_price : Option ℚ
  trail_distance : Option ℚ
  context : List ContextLine
deriving DecidableEq

/-- lines 240-294 of live_bot.py: assemble the report for a fired signal. -/
def buildReport (symbol : String) (row : AlignedRow) (btc : Option BtcCtx) : Report :=
  { symbol := symbol
    entry_price := row.close
    stop_loss := nanAdd row.close (nanMul SL_ATR_MULT row.atr_1h)
    partial_tp_price := nanSub row.close (nanMul PARTIAL_TP_ATR_MULT row.atr_1h)
    trail_distance := nanMul TRAIL_ATR_MULT row.atr_1h
    context := buildContext row btc }

/-- the numeric fields interpolated into the message format string at
lines 284-294, in order; every one of the four fields is always present
in the sent text, with `none` standing for a NaN rendering. -/
def messageFields (r : Report) : List (String × Option ℚ) :=
  [("Entry Price", some r.entry_price),
   ("Stop Loss", r.stop_loss),
   ("Partial TP (TP1)", r.partial_tp_price),
   ("Trail Distance", r.trail_distance)]

/-- outcome of one iteration of the symbol loop of `check_for_signals`. -/
inductive Outcome where
  | skipped_cooldown_now
  | skipped_no_data
  | skipped_cooldown_bar
  | no_signal
  | raised (r : Report)
deriving DecidableEq

/-- true exactly on the `raised` outcome. -/
def isRaised : Outcome → Bool
  | Outcome.raised _ => true
  | _ => false

/-- one iteration of the symbol loop of `check_for_signals` (live_bot.py
lines 207-301), for one symbol, given the cooldown dict, the wall clock
`now`, the prepared frame `rows` (the result of `_prep_live_data`) and the
BTC context frame lookup at the evaluated bar.  `rows.length < 2` covers
both the `df_prep.empty` skip at line 217 and the out-of-range
`iloc[-2]` on a single-row frame, each of which leaves the dict
unchanged; otherwise `last_candle = df_prep.iloc[-2]` is the
second-to-last row (the `none` arm of the match is unreachable, since
the index `rows.length - 2` is then in range). -/
def check_symbol (cooldowns : Cooldowns) (symbol : String) (now : ℤ)
    (rows : List AlignedRow) (btc : Option BtcCtx) : Outcome × Cooldowns :=
  if is_cooling_down cooldowns symbol now then
    (Outcome.skipped_cooldown_now, cooldowns)
  else if rows.length < 2 then
    (Outcome.skipped_no_data, cooldowns)
  else
    match rows[rows.length - 2]? with
    | none => (Outcome.skipped_no_data, cooldowns)
    | some last_candle =>
      if cooldown_blocks_bar cooldowns symbol last_candle.ts then
        (Outcome.skipped_cooldown_bar, cooldowns)
      else if is_core_signal last_candle then
        (Outcome.raised (buildReport symbol last_candle btc),
         place_on_cooldown cooldowns symbol now SIGNAL_COOLDOWN_MINUTES)
      else
        (Outcome.no_signal, cooldowns)

/-- the double-quote character. -/
def quoteC : Char := Char.ofNat 34

/-- the backslash character. -/
def backslashC : Char := Char.ofNat 92

/-- the space character. -/
def spaceC : Char := Char.ofNat 32

/-- the newline character. -/
def newlineC : Char := Char.ofNat 10

/-- the tab character. -/
def tabC : Char := Char.ofNat 9

/-- the carriage-return character. -/
def crC : Char := Char.ofNat 13

/-- the opening-brace character. -/
def lbraceC : Char := Char.ofNat 123

/-- the closing-brace character. -/
def rbraceC : Char := Char.ofNat 125

/-- JSON insignificant whitespace. -/
def isWsChar (c : Char) : Bool :=
  c = spaceC || c = newlineC || c = tabC || c = crC

/-- drop leading JSON whitespace. -/
def skipWs : List Char → List Char
  | [] => []
  | c :: rest => if isWsChar c then skipWs rest else c :: rest

/-- a parsed JSON document, the value domain of `json.load` as exercised
by the cooldown store: objects, arrays, strings, literals and unsigned
integers (the fragment the store and its failure modes can produce). -/
inductive Json where
  | null
  | bool (b : Bool)
  | num (n : ℕ)
  | str (s : List Char)
  | arr (xs : List Json)
  | obj (fields : List (List Char × Json))

/-- true exactly when a parsed JSON document is an object, i.e. loads as
a Python dict (a mapping). -/
def isMapping : Json → Bool
  | Json.obj _ => true
  | _ => false

/-- read the body of a JSON string literal after its opening quote, up to
the closing quote; escape sequences are outside the modelled fragment and
make the parse fail. -/
def takeStr : List Char → Option (List Char × List Char)
  | [] => none
  | c :: rest =>
    if c = quoteC then some ([], rest)
    else if c = backslashC then none
    else (takeStr rest).map (fun p => (c :: p.1, p.2))

/-- numeric value of a digit run. -/
def digitsToNat (ds : List Char) : ℕ :=
  ds.foldl (fun a c => 10 * a + (c.toNat - 48)) 0

mutual

/-- recursive-descent model of `json.loads` on one value: returns the
parsed value and the unconsumed suffix; `fuel` bounds nesting. -/
def parseVal : ℕ → List Char → Option (Json × List Char)
  | 0, _ => none
  | Nat.succ fuel, s =>
    match skipWs s with
    | [] => none
    | c :: rest =>
      if c = quoteC then
        (takeStr rest).map (fun p => (Json.str p.1, p.2))
      else if c = lbraceC then
        match skipWs rest with
        | [] => none
        | d :: rest2 =>
          if d = rbraceC then some (Json.obj [], rest2)
          else (parseMembers fuel (d :: rest2)).map (fun p => (Json.obj p.1, p.2))
      else if c = '[' then
        match skipWs rest with
        | [] => none
        | d :: rest2 =>
          if d = ']' then some (Json.arr [], rest2)
          else (parseItems fuel (d :: rest2)).map (fun p => (Json.arr p.1, p.2))
      else if c = 'n' then
        match rest with
        | 'u' :: 'l' :: 'l' :: r => some (Json.null, r)
        | _ => none
      else if c = 't' then
        match rest with
        | 'r' :: 'u' :: 'e' :: r => some (Json.bool true, r)
        | _ => none
      else if c = 'f' then
        match rest with
        | 'a' :: 'l' :: 's' :: 'e' :: r => some (Json.bool false, r)
        | _ => none
      else if c.isDigit then
        some (Json.num (digitsToNat ((c :: rest).takeWhile Char.isDigit)),
              (c :: rest).dropWhile Char.isDigit)
      else none

/-- parse the nonempty member list of a JSON object, consuming the
closing brace. -/
def parseMembers : ℕ → List Char → Option (List (List Char × Json) × List Char)
  | 0, _ => none
  | Nat.succ fuel, s =>
    match skipWs s with
    | [] => none
    | c :: rest =>
      if c = quoteC then
        match takeStr rest with
        | none => none
        | some (key, rest2) =>
          match skipWs rest2 with
          | [] => none
          | d :: rest3 =>
            if d = ':' then
              match parseVal fuel rest3 with
              | none => none
              | some (v, rest4) =>
                match skipWs rest4 with
                | [] => none
                | e :: rest5 =>
                  if e = ',' then
                    (parseMembers fuel rest5).map (fun p => ((key, v) :: p.1, p.2))
                  else if e = rbraceC then some ([(key, v)], rest5)
                  else none
            else none
      else none

/-- parse the nonempty item list of a JSON array, consuming the closing
bracket. -/
def parseItems : ℕ → List Char → Option (List Json × List Char)
  | 0, _ => none
  | Nat.succ fuel, s =>
    match parseVal fuel s with
    | none => none
    | some (v, rest) =>
      match skipWs rest with
      | [] => none
      | e :: rest2 =>
        if e = ',' then
          (parseItems fuel rest2).map (fun p => (v :: p.1, p.2))
        else if e = ']' then some ([v], rest2)
        else none

end

/-- model of `json.loads` on a whole document: one value followed by
nothing but whitespace; anything else is a `JSONDecodeError`. -/
def json_loads (s : List Char) : Option Json :=
  match parseVal (s.length + 1) s with
  | none => none
  | some (j, rest) => if skipWs rest = [] then some j else none

/-- function `load_cooldowns` (live_bot.py lines 31-38) over the file state:
missing file → `{}`; unparseable contents (`JSONDecodeError`) → `{}`;
otherwise the value `json.load` produced, whatever it is. -/
def load_cooldowns (file : Option (List Char)) : Json :=
  match file with
  | none => Json.obj []
  | some s =>
    match json_loads s with
    | some j => j
    | none => Json.obj []

/-- a string literal as printed by `json.dump` for a string with no
characters needing escapes. -/
def quoteStr (s : List Char) : List Char :=
  quoteC :: (s ++ [quoteC])

/-- one `"key": "value"` member line as printed by
`json.dump(..., indent=4)`, including its 4-space indent. -/
def dumpEntry (kv : List Char × List Char) : List Char :=
  spaceC :: spaceC :: spaceC :: spaceC :: quoteC ::
    (kv.1 ++ quoteC :: ':' :: spaceC :: quoteC :: (kv.2 ++ [quoteC]))

/-- the member lines joined by `",\n"`. -/
def joinEntries : List (List Char × List Char) → List Char
  | [] => []
  | [kv] => dumpEntry kv
  | kv :: kv2 :: rest => dumpEntry kv ++ ',' :: newlineC :: joinEntries (kv2 :: rest)

/-- the exact text `json.dump(mapping, f, indent=4)` writes for a
string-to-string mapping. -/
def json_dump_store (m : List (List Char × List Char)) : List Char :=
  match m with
  | [] => [lbraceC, rbraceC]
  | kv :: rest => lbraceC :: newlineC :: (joinEntries (kv :: rest) ++ [newlineC, rbraceC])

/-- function `save_cooldowns` (live_bot.py lines 40-42): opening with mode `w`
truncates whatever the file held before, so the resulting file state is
the dump of the mapping alone, independent of the prior state. -/
def save_cooldowns (prior : Option (List Char)) (m : List (List Char × List Char)) :
    Option (List Char) :=
  some (json_dump_store m)

/-- a character a symbol or an isoformat timestamp may contain: anything
that `json.dump` prints without an escape sequence. -/
def plainChar (c : Char) : Bool :=
  !(c = quoteC) && !(c = backslashC)

/-- a string `json.dump` prints verbatim between quotes. -/
def plainStr (s : List Char) : Bool :=
  s.all plainChar

/-- a mapping whose keys and values are all plain strings, as every
mapping the bot ever saves is (symbols and isoformat timestamps). -/
def plainStore (m : List (List Char × List Char)) : Bool :=
  m.all (fun kv => plainStr kv.1 && plainStr kv.2)

/-- the JSON document a string-to-string mapping denotes. -/
def storeAsJson (m : List (List Char × List Char)) : Json :=
  Json.obj (m.map (fun kv => (kv.1, Json.str kv.2)))

/-- line 172 of live_bot.py: `BARS_PER_HOUR = 60 //
int(cfg.BOT_TIMEFRAME.replace(m, ))`, for a base bar interval of
`interval_minutes` minutes. -/
def BARS_PER_HOUR (interval_minutes : ℕ) : ℕ :=
  60 / interval_minutes

/-- lines 173-174 of live_bot.py: `BOOM_BAR_COUNT = BARS_PER_HOUR *
cfg.PRICE_BOOM_PERIOD_H` (and the analogous slowdown count), for a
lookback of `lookback_hours` hours. -/
def lookback_bar_count (interval_minutes lookback_hours : ℕ) : ℕ :=
  BARS_PER_HOUR interval_minutes * lookback_hours

/-- pandas `Series.shift(n)`: row `t` of the result is NaN for `t < n`
and the source row `t - n` otherwise. -/
def seriesShift (n : ℕ) (closes : List ℚ) : List (Option ℚ) :=
  (List.range closes.length).map (fun t => if t < n then none else closes[t - n]?)

/-- lines 175-176 of live_bot.py: the lookback column
`df5[close_boom_ago] = df5[close].shift(BOOM_BAR_COUNT)` (and the
slowdown analogue), for a generic interval and lookback duration. -/
def close_n_ago (interval_minutes lookback_hours : ℕ) (closes : List ℚ) :
    List (Option ℚ) :=
  seriesShift (lookback_bar_count interval_minutes lookback_hours) closes

/-- a concrete aligned row with flat prices and no auxiliary data, used
as a test vector. -/
def flatRow (t : ℤ) : AlignedRow :=
  { ts := t, close := 1, close_boom_ago := 1, close_slowdown_ago := 1,
    atr_1h := none, ema_fast_4h := none, ema_slow_4h := none,
    rsi_4h := none, adx_4h := none, ret_30d := none }

/-- a concrete aligned row on which the core signal fires (boom return
13% ≥ 10%, slowdown return 0 ≤ 1%) while the ATR value is NaN, used as a
test vector. -/
def atrNaNRow : AlignedRow :=
  { ts := 0, close := 113, close_boom_ago := 100, close_slowdown_ago := 113,
    atr_1h := none, ema_fast_4h := none, ema_slow_4h := none,
    rsi_4h := none, adx_4h := none, ret_30d := none }

/-- a concrete aligned row with the same timestamp, close and lookback
closes as `atrNaNRow` but with every auxiliary indicator defined, used as
a test vector. -/
def atrDefinedRow : AlignedRow :=
  { ts := 0, close := 113, close_boom_ago := 100, close_slowdown_ago := 113,
    atr_1h := some 2, ema_fast_4h := some 1, ema_slow_4h := some 2,
    rsi_4h := some 50, adx_4h := some 25, ret_30d := some (-1/4) }

theorem dictLookup_dictSet_self (m : Cooldowns) (s : String) (v : ℤ) :
    dictLookup (dictSet m s v) s = some v := by
  induction m with
  | nil => simp [dictLookup, dictSet, List.lookup]
  | cons kv rest ih =>
    obtain ⟨k, w⟩ := kv
    by_cases h : k = s
    · subst h
      simp [dictLookup, dictSet, List.lookup]
    · have hsk : (s == k) = false := by
        simp [Ne.symm h]
      simp only [dictSet, if_neg h]
      simpa [dictLookup, List.lookup, hsk] using ih

theorem dictLookup_dictSet_other (m : Cooldowns) (s t : String) (v : ℤ)
    (h : t ≠ s) :
    dictLookup (dictSet m s v) t = dictLookup m t := by
  have hts : (t == s) = false := by
    simp [h]
  induction m with
  | nil => simp [dictLookup, dictSet, List.lookup, hts]
  | cons kv rest ih =>
    obtain ⟨k, w⟩ := kv
    by_cases hk : k = s
    · subst hk
      simp [dictLookup, dictSet, List.lookup, hts]
    · by_cases hkt : (t == k) = true
      · simp only [dictSet, if_neg hk]
        simp [dictLookup, List.lookup, hkt]
      · have hkt' : (t == k) = false := by
          simpa using hkt
        simp only [dictSet, if_neg hk]
        simpa [dictLookup, List.lookup, hkt'] using ih

/-- C2: `place_on_cooldown` stores exactly `now + duration` for the
symbol, leaves every other symbol's entry unchanged (cooldowns never
stack or extend), a 30-minute cooldown placed at `now` is still active at
`now + 29` minutes and inactive at `now + 31` minutes, and
`is_cooling_down` holds exactly when the symbol is present with a stored
expiry strictly greater than `now`. -/
theorem place_on_cooldown_spec (m : Cooldowns) (s t : String) (now dur : ℤ)
    (hne : t ≠ s) :
    dictLookup (place_on_cooldown m s now dur) s = some (now + dur)
    ∧ dictLookup (place_on_cooldown m s now dur) t = dictLookup m t
    ∧ is_cooling_down (place_on_cooldown m s now 30) s (now + 29) = true
    ∧ is_cooling_down (place_on_cooldown m s now 30) s (now + 31) = false
    ∧ ∀ (m2 : Cooldowns) (u : String) (t2 : ℤ),
        is_cooling_down m2 u t2 = true ↔ ∃ e, dictLookup m2 u = some e ∧ t2 < e := by
  refine ⟨dictLookup_dictSet_self m s (now + dur),
          dictLookup_dictSet_other m s t (now + dur) hne, ?_, ?_, ?_⟩
  · simp [is_cooling_down, place_on_cooldown, dictLookup_dictSet_self]
  · simp [is_cooling_down, place_on_cooldown, dictLookup_dictSet_self]
  · intro m2 u t2
    unfold is_cooling_down
    cases h : dictLookup m2 u with
    | none => simp
    | some e => simp

theorem place_on_cooldown_spec_witness :
    ("ETHUSDT" : String) ≠ "BTCUSDT"
    ∧ dictLookup (place_on_cooldown [] "BTCUSDT" 0 30) "BTCUSDT" = some (0 + 30)
    ∧ is_cooling_down (place_on_cooldown [] "BTCUSDT" 0 30) "BTCUSDT" (0 + 29) = true
    ∧ is_cooling_down (place_on_cooldown [] "BTCUSDT" 0 30) "BTCUSDT" (0 + 31) = false := by
  have h := place_on_cooldown_spec [] "BTCUSDT" "ETHUSDT" 0 30 (by decide)
  exact ⟨by decide, h.1, h.2.2.1, h.2.2.2.1⟩

/-- C9: when the symbol has a stored cooldown entry whose expiry is later
than the evaluated (second-to-last) bar's timestamp, no signal is raised
for that bar and the cooldown dict is left untouched, regardless of
whether the wall-clock `now` is already past the expiry: either the first
gate (line 208-211) or the closed-bar gate (line 223) skips the symbol. -/
theorem signal_never_raised_before_expiry (m : Cooldowns) (s : String)
    (now e : ℤ) (rows : List AlignedRow) (row : AlignedRow)
    (btc : Option BtcCtx)
    (hget : rows[rows.length - 2]? = some row)
    (hlk : dictLookup m s = some e)
    (hbar : row.ts < e) :
    isRaised (check_symbol m s now rows btc).1 = false
    ∧ (check_symbol m s now rows btc).2 = m := by
  unfold check_symbol
  by_cases h1 : is_cooling_down m s now = true
  · simp [h1, isRaised]
  · by_cases hlen : rows.length < 2
    · simp [h1, hlen, isRaised]
    · have hblock : cooldown_blocks_bar m s row.ts = true := by
        unfold cooldown_blocks_bar
        rw [hlk]
        simpa using hbar
      simp [h1, hlen, hget, hblock, isRaised]

theorem signal_never_raised_before_expiry_witness :
    ([flatRow 0, flatRow 5][([flatRow 0, flatRow 5] : List AlignedRow).length - 2]?
        = some (flatRow 0))
    ∧ dictLookup [("BTCUSDT", (7 : ℤ))] "BTCUSDT" = some 7
    ∧ (flatRow 0).ts < 7
    ∧ isRaised (check_symbol [("BTCUSDT", (7 : ℤ))] "BTCUSDT" 100
        [flatRow 0, flatRow 5] none).1 = false := by
  have h := signal_never_raised_before_expiry [("BTCUSDT", (7 : ℤ))] "BTCUSDT" 100 7
    [flatRow 0, flatRow 5] (flatRow 0) none (by rfl) (by decide) (by decide)
  exact ⟨by rfl, by decide, by decide, h.1⟩

/-- C10: one iteration of the symbol loop changes the cooldown dict at
the evaluated symbol's key only — every other symbol's entry reads the
same after the iteration — and when no signal is raised the dict is left
exactly as it was, so the evaluated symbol's own entry changes only when
the core signal fires. -/
theorem check_symbol_frame (m : Cooldowns) (s : String) (now : ℤ)
    (rows : List AlignedRow) (btc : Option BtcCtx) :
    (∀ t, t ≠ s → dictLookup (check_symbol m s now rows btc).2 t = dictLookup m t)
    ∧ (isRaised (check_symbol m s now rows btc).1 = false →
        (check_symbol m s now rows btc).2 = m) := by
  unfold check_symbol
  by_cases h1 : is_cooling_down m s now = true
  · simp [h1]
  · by_cases hlen : rows.length < 2
    · simp [h1, hlen]
    · cases hget : rows[rows.length - 2]? with
      | none => simp [h1, hlen, hget]
      | some row =>
        by_cases h3 : cooldown_blocks_bar m s row.ts = true
        · simp [h1, hlen, hget, h3]
        · by_cases h4 : is_core_signal row = true
          · constructor
            · intro t ht
              simp only [h1, hlen, hget, h3, h4]
              simp [h1, hlen, hget, h3, h4, place_on_cooldown,
                dictLookup_dictSet_other m s t _ ht]
            · intro hraise
              simp [h1, hlen, hget, h3, h4, isRaised] at hraise
          · simp [h1, hlen, hget, h3, h4]

theorem check_symbol_frame_witness :
    ("ETHUSDT" : String) ≠ "BTCUSDT"
    ∧ dictLookup (check_symbol [] "BTCUSDT" 0 [] none).2 "ETHUSDT" = dictLookup [] "ETHUSDT"
    ∧ (check_symbol [] "BTCUSDT" 0 [] none).2 = [] := by
  have h := check_symbol_frame [] "BTCUSDT" 0 [] none
  exact ⟨by decide, h.1 "ETHUSDT" (by decide), h.2 (by decide)⟩

/-- C1: at an evaluated closed bar with positive lookback closes,
`boom` holds iff the boom return `close/close_boom_ago - 1` is at least
`PRICE_BOOM_PCT`, `slow` holds iff the slowdown return
`close/close_slowdown_ago - 1` is at most `PRICE_SLOWDOWN_PCT`, the core
signal is their conjunction, and whenever the core signal is false no
signal is raised by the symbol loop iteration evaluating that bar. -/
theorem core_signal_spec (row : AlignedRow)
    (hb : 0 < row.close_boom_ago) (hs : 0 < row.close_slowdown_ago) :
    (boomFlag row = true ↔ PRICE_BOOM_PCT ≤ row.close / row.close_boom_ago - 1)
    ∧ (slowFlag row = true ↔ row.close / row.close_slowdown_ago - 1 ≤ PRICE_SLOWDOWN_PCT)
    ∧ is_core_signal row = (boomFlag row && slowFlag row)
    ∧ (is_core_signal row = false →
        ∀ (m : Cooldowns) (s : String) (now : ℤ) (rows : List AlignedRow)
          (btc : Option BtcCtx),
          rows[rows.length - 2]? = some row →
          isRaised (check_symbol m s now rows btc).1 = false) := by
  have hb' : row.close_boom_ago ≠ 0 := ne_of_gt hb
  have hs' : row.close_slowdown_ago ≠ 0 := ne_of_gt hs
  have e1 : (row.close - row.close_boom_ago) / row.close_boom_ago
      = row.close / row.close_boom_ago - 1 := by
    rw [sub_div, div_self hb']
  have e2 : (row.close - row.close_slowdown_ago) / row.close_slowdown_ago
      = row.close / row.close_slowdown_ago - 1 := by
    rw [sub_div, div_self hs']
  refine ⟨by simp [boomFlag, e1], by simp [slowFlag, e2], rfl, ?_⟩
  intro hcore m s now rows btc hget
  unfold check_symbol
  by_cases h1 : is_cooling_down m s now = true
  · simp [h1, isRaised]
  · by_cases hlen : rows.length < 2
    · simp [h1, hlen, isRaised]
    · by_cases h3 : cooldown_blocks_bar m s row.ts = true
      · simp [h1, hlen, hget, h3, isRaised]
      · simp [h1, hlen, hget, h3, hcore, isRaised]

theorem atrNaNRow_core_signal : is_core_signal atrNaNRow = true := by
  simp [is_core_signal, boomFlag, slowFlag, atrNaNRow, PRICE_BOOM_PCT,
    PRICE_SLOWDOWN_PCT]
  norm_num

theorem core_signal_spec_witness :
    (0 : ℚ) < atrNaNRow.close_boom_ago
    ∧ (0 : ℚ) < atrNaNRow.close_slowdown_ago
    ∧ (boomFlag atrNaNRow = true ↔
        PRICE_BOOM_PCT ≤ atrNaNRow.close / atrNaNRow.close_boom_ago - 1) := by
  have h := core_signal_spec atrNaNRow (by norm_num [atrNaNRow]) (by norm_num [atrNaNRow])
  exact ⟨by norm_num [atrNaNRow], by norm_num [atrNaNRow], h.1⟩

/-- C5: the symbol loop inspects only the second-to-last row of the
prepared frame: two frames of the same length that agree on the row at
index `length - 2` — their last rows, and all earlier rows, may differ
arbitrarily — produce exactly the same outcome and cooldown dict, so the
in-progress last bar never contributes to a decision. -/
theorem evaluator_uses_second_to_last (m : Cooldowns) (s : String) (now : ℤ)
    (btc : Option BtcCtx) (rows1 rows2 : List AlignedRow)
    (hlen : rows1.length = rows2.length)
    (heq : rows1[rows1.length - 2]? = rows2[rows2.length - 2]?) :
    check_symbol m s now rows1 btc = check_symbol m s now rows2 btc := by
  unfold check_symbol
  rw [heq, hlen]

theorem evaluator_uses_second_to_last_witness :
    ([flatRow 0, flatRow 5] : List AlignedRow).length
      = ([flatRow 0, flatRow 99] : List AlignedRow).length
    ∧ check_symbol [] "BTCUSDT" 0 [flatRow 0, flatRow 5] none
      = check_symbol [] "BTCUSDT" 0 [flatRow 0, flatRow 99] none := by
  exact ⟨rfl, evaluator_uses_second_to_last [] "BTCUSDT" 0 none
    [flatRow 0, flatRow 5] [flatRow 0, flatRow 99] rfl rfl⟩

/-- C6: whether a signal is raised, and the entire cooldown update,
depend only on the evaluated bar's timestamp, close and two lookback
closes: two runs agreeing on those four values but differing arbitrarily
in the auxiliary filter inputs (EMA fast/slow, RSI, ADX, 30-day return,
BTC trend frame) raise a signal in exactly the same cases and leave
identical cooldown dicts; the auxiliary inputs only affect the report. -/
theorem aux_filters_do_not_gate (m : Cooldowns) (s : String) (now : ℤ)
    (btc1 btc2 : Option BtcCtx) (rows1 rows2 : List AlignedRow)
    (row1 row2 : AlignedRow)
    (hlen : rows1.length = rows2.length)
    (hget1 : rows1[rows1.length - 2]? = some row1)
    (hget2 : rows2[rows2.length - 2]? = some row2)
    (hts : row1.ts = row2.ts)
    (hclose : row1.close = row2.close)
    (hboom : row1.close_boom_ago = row2.close_boom_ago)
    (hslow : row1.close_slowdown_ago = row2.close_slowdown_ago) :
    isRaised (check_symbol m s now rows1 btc1).1
      = isRaised (check_symbol m s now rows2 btc2).1
    ∧ (check_symbol m s now rows1 btc1).2 = (check_symbol m s now rows2 btc2).2 := by
  have hcore : is_core_signal row1 = is_core_signal row2 := by
    simp [is_core_signal, boomFlag, slowFlag, hclose, hboom, hslow]
  unfold check_symbol
  by_cases h1 : is_cooling_down m s now = true
  · simp [h1]
  · by_cases hl : rows1.length < 2
    · have hl2 : rows2.length < 2 := by omega
      simp [h1, hl, hl2]
    · have hl2 : ¬ rows2.length < 2 := by omega
      by_cases h3 : cooldown_blocks_bar m s row1.ts = true
      · have h3' : cooldown_blocks_bar m s row2.ts = true := by
          rw [← hts]
          exact h3
        simp [h1, hl, hl2, hget1, hget2, h3, h3']
      · have h3' : ¬ cooldown_blocks_bar m s row2.ts = true := by
          rw [← hts]
          exact h3
        by_cases h4 : is_core_signal row1 = true
        · have h4' : is_core_signal row2 = true := hcore ▸ h4
          simp [h1, hl, hl2, hget1, hget2, h3, h3', h4, h4', isRaised]
        · have h4' : ¬ is_core_signal row2 = true := by
            rw [← hcore]
            exact h4
          simp [h1, hl, hl2, hget1, hget2, h3, h3', h4, h4', isRaised]

theorem aux_filters_do_not_gate_witness :
    atrNaNRow.close = atrDefinedRow.close
    ∧ atrNaNRow.atr_1h ≠ atrDefinedRow.atr_1h
    ∧ isRaised (check_symbol [] "HUSDT" 0 [atrNaNRow, flatRow 5] none).1
      = isRaised (check_symbol [] "HUSDT" 0
          [atrDefinedRow, flatRow 7] (some { close := some 10, ema := some 9 })).1
    ∧ (check_symbol [] "HUSDT" 0 [atrNaNRow, flatRow 5] none).2
      = (check_symbol [] "HUSDT" 0
          [atrDefinedRow, flatRow 7] (some { close := some 10, ema := some 9 })).2 := by
  have h := aux_filters_do_not_gate [] "HUSDT" 0
    none (some { close := some 10, ema := some 9 })
    [atrNaNRow, flatRow 5] [atrDefinedRow, flatRow 7] atrNaNRow atrDefinedRow
    rfl rfl rfl rfl rfl rfl rfl
  exact ⟨rfl, by simp [atrNaNRow, atrDefinedRow], h.1, h.2⟩

/-- C3 counterexample: on a bar where the core signal fires while the
ATR value is NaN, the emitted message does contain NaN-derived trade
parameters: the Stop Loss field (and the Partial TP and Trail Distance
fields) are present in the message with NaN-derived values rather than
being withheld. -/
theorem nan_trade_params_counterexample :
    is_core_signal atrNaNRow = true
    ∧ atrNaNRow.atr_1h = none
    ∧ ("Stop Loss", (none : Option ℚ)) ∈ messageFields (buildReport "HUSDT" atrNaNRow none)
    ∧ ((messageFields (buildReport "HUSDT" atrNaNRow none)).filter
        (fun f => f.2.isNone)).length = 3 := by
  refine ⟨atrNaNRow_core_signal, rfl, by decide, by decide⟩

/-- C3 amended: when the core signal fires on a bar whose ATR value is
NaN, the decision is still raised (the gates being open), but the trade
parameters are not withheld from the emitted report: the message carries
the entry price (the bar's close) together with NaN-derived Stop Loss,
Partial TP and Trail Distance fields, computed from the undefined ATR
value; no price is fabricated as zero. -/
theorem nan_trade_params_emitted (m : Cooldowns) (sym : String) (now : ℤ)
    (rows : List AlignedRow) (row : AlignedRow) (btc : Option BtcCtx)
    (hget : rows[rows.length - 2]? = some row)
    (hlen : ¬ rows.length < 2)
    (hg1 : is_cooling_down m sym now = false)
    (hg2 : cooldown_blocks_bar m sym row.ts = false)
    (hsig : is_core_signal row = true)
    (hatr : row.atr_1h = none) :
    check_symbol m sym now rows btc
      = (Outcome.raised (buildReport sym row btc),
         place_on_cooldown m sym now SIGNAL_COOLDOWN_MINUTES)
    ∧ (buildReport sym row btc).entry_price = row.close
    ∧ (buildReport sym row btc).stop_loss = none
    ∧ (buildReport sym row btc).partial_tp_price = none
    ∧ (buildReport sym row btc).trail_distance = none
    ∧ ("Stop Loss", (none : Option ℚ)) ∈ messageFields (buildReport sym row btc) := by
  have h1 : ¬ is_cooling_down m sym now = true := by
    simp [hg1]
  have h3 : ¬ cooldown_blocks_bar m sym row.ts = true := by
    simp [hg2]
  refine ⟨?_, rfl, ?_, ?_, ?_, ?_⟩
  · unfold check_symbol
    simp [h1, hlen, hget, h3, hsig]
  · simp [buildReport, nanAdd, nanMul, hatr]
  · simp [buildReport, nanSub, nanMul, hatr]
  · simp [buildReport, nanMul, hatr]
  · simp [messageFields, buildReport, nanAdd, nanMul, hatr]

theorem nan_trade_params_emitted_witness :
    is_core_signal atrNaNRow = true
    ∧ atrNaNRow.atr_1h = none
    ∧ check_symbol [] "HUSDT" 0 [atrNaNRow, flatRow 5] none
      = (Outcome.raised (buildReport "HUSDT" atrNaNRow none),
         place_on_cooldown [] "HUSDT" 0 SIGNAL_COOLDOWN_MINUTES) := by
  have h := nan_trade_params_emitted [] "HUSDT" 0 [atrNaNRow, flatRow 5] atrNaNRow none
    rfl (by decide) (by decide) (by decide) atrNaNRow_core_signal rfl
  exact ⟨atrNaNRow_core_signal, rfl, h.1⟩

/-- C4: for a base bar interval that divides the hour evenly (any other
interval is a configuration error) the Lookback Calculator computes
`bars_per_hour = 60 / interval_minutes` exactly, the lookback bar count
as `bars_per_hour * lookback_hours`, and a column of the same length as
the close series whose entry at row `t` is undefined for the first
`lookback_bar_count` rows and equals `close[t - lookback_bar_count]`
afterwards. -/
theorem lookback_calculator_spec (im lh : ℕ) (closes : List ℚ)
    (hdvd : im ∣ 60) (hpos : 0 < im) :
    BARS_PER_HOUR im * im = 60
    ∧ (BARS_PER_HOUR im : ℚ) = 60 / (im : ℚ)
    ∧ lookback_bar_count im lh = BARS_PER_HOUR im * lh
    ∧ (close_n_ago im lh closes).length = closes.length
    ∧ (∀ t, t < closes.length →
        (close_n_ago im lh closes)[t]? =
          some (if t < lookback_bar_count im lh then none
                else closes[t - lookback_bar_count im lh]?)) := by
  have him : (im : ℚ) ≠ 0 := by
    exact_mod_cast hpos.ne'
  refine ⟨Nat.div_mul_cancel hdvd, ?_, rfl, ?_, ?_⟩
  · simpa [BARS_PER_HOUR] using (Nat.cast_div hdvd him : ((60 / im : ℕ) : ℚ) = 60 / im)
  · simp [close_n_ago, seriesShift]
  · intro t ht
    simp [close_n_ago, seriesShift, ht]

theorem lookback_calculator_spec_witness :
    (5 ∣ 60) ∧ 0 < 5
    ∧ BARS_PER_HOUR 5 * 5 = 60
    ∧ lookback_bar_count 5 24 = BARS_PER_HOUR 5 * 24
    ∧ (close_n_ago 5 24 ([1, 2, 3] : List ℚ)).length = 3 := by
  have h := lookback_calculator_spec 5 24 [1, 2, 3] (by decide) (by decide)
  exact ⟨by decide, by decide, h.1, h.2.2.1, by simpa using h.2.2.2.1⟩

theorem skipWs_ws (c : Char) (hc : isWsChar c = true) (s : List Char) :
    skipWs (c :: s) = skipWs s := by
  simp [skipWs, hc]

theorem skipWs_nonws (c : Char) (hc : isWsChar c = false) (s : List Char) :
    skipWs (c :: s) = c :: s := by
  simp [skipWs, hc]

theorem skipWs_idem (s : List Char) : skipWs (skipWs s) = skipWs s := by
  induction s with
  | nil => rfl
  | cons c t ih =>
    by_cases hc : isWsChar c = true
    · rw [skipWs_ws c hc, ih]
    · have hc' : isWsChar c = false := by
        simpa using hc
      rw [skipWs_nonws c hc', skipWs_nonws c hc']

theorem takeStr_plain (s : List Char) (h : plainStr s = true) (rest : List Char) :
    takeStr (s ++ quoteC :: rest) = some (s, rest) := by
  induction s with
  | nil => simp [takeStr]
  | cons c cs ih =>
    have hc : plainChar c = true ∧ plainStr cs = true := by
      simpa [plainStr] using h
    have h1 : ¬ c = quoteC := by
      intro hq
      rw [hq] at hc
      simp [plainChar] at hc
    have h2 : ¬ c = backslashC := by
      intro hq
      rw [hq] at hc
      simp [plainChar] at hc
    simp [takeStr, h1, h2, ih hc.2]

theorem parseVal_plainString (f : ℕ) (v rest s : List Char)
    (hv : plainStr v = true)
    (hs : skipWs s = quoteC :: (v ++ quoteC :: rest)) :
    parseVal (Nat.succ f) s = some (Json.str v, rest) := by
  rw [parseVal, hs]
  simp [takeStr_plain v hv rest]

theorem parseMembers_ws (f : ℕ) (c : Char) (hc : isWsChar c = true) (t : List Char) :
    parseMembers (Nat.succ f) (c :: t) = parseMembers (Nat.succ f) t := by
  rw [parseMembers, parseMembers, skipWs_ws c hc]

theorem parseMembers_skipWs (f : ℕ) (s : List Char) :
    parseMembers (Nat.succ f) (skipWs s) = parseMembers (Nat.succ f) s := by
  rw [parseMembers, parseMembers, skipWs_idem]

theorem joinEntries_length_ge (a : List Char × List Char)
    (l : List (List Char × List Char)) :
    l.length + 1 ≤ (joinEntries (a :: l)).length := by
  induction l generalizing a with
  | nil => simp [joinEntries, dumpEntry]
  | cons b tl ih =>
    have hb := ih b
    simp only [joinEntries, List.length_append, List.length_cons] at hb ⊢
    simp only [dumpEntry, List.length_cons]
    omega

theorem parseMembers_dump (l : List (List Char × List Char))
    (a : List Char × List Char) (rest : List Char) (fuel : ℕ)
    (hfuel : l.length + 2 ≤ fuel) (hplain : plainStore (a :: l) = true) :
    parseMembers fuel (joinEntries (a :: l) ++ newlineC :: rbraceC :: rest)
      = some ((a :: l).map (fun kv => (kv.1, Json.str kv.2)), rest) := by
  induction l generalizing a fuel rest with
  | nil =>
    obtain ⟨f2, rfl⟩ : ∃ f2, fuel = Nat.succ (Nat.succ f2) :=
      ⟨fuel - 2, by omega⟩
    have hp1 : plainStr a.1 = true ∧ plainStr a.2 = true := by
      simpa [plainStore] using hplain
    rw [joinEntries]
    rw [parseMembers]
    rw [show dumpEntry a ++ newlineC :: rbraceC :: rest
        = spaceC :: spaceC :: spaceC :: spaceC :: quoteC ::
            (a.1 ++ quoteC ::
              (':' :: spaceC :: quoteC ::
                (a.2 ++ quoteC :: newlineC :: rbraceC :: rest)))
      from by simp [dumpEntry]]
    rw [skipWs_ws spaceC (by decide), skipWs_ws spaceC (by decide),
        skipWs_ws spaceC (by decide), skipWs_ws spaceC (by decide),
        skipWs_nonws quoteC (by decide)]
    simp only [if_true]
    rw [takeStr_plain a.1 hp1.1]
    simp only []
    rw [skipWs_nonws ':' (by decide)]
    simp only [if_true]
    rw [parseVal_plainString f2 a.2 (newlineC :: rbraceC :: rest)
        (spaceC :: quoteC :: (a.2 ++ quoteC :: newlineC :: rbraceC :: rest))
        hp1.2
        (by rw [skipWs_ws spaceC (by decide), skipWs_nonws quoteC (by decide)])]
    simp only []
    rw [skipWs_ws newlineC (by decide), skipWs_nonws rbraceC (by decide)]
    simp only [if_true, List.map_cons, List.map_nil]
    rw [if_neg (show ¬ rbraceC = ',' from by decide)]
  | cons b tl ih =>
    obtain ⟨f2, rfl⟩ : ∃ f2, fuel = Nat.succ (Nat.succ f2) :=
      ⟨fuel - 2, by omega⟩
    have hp1 : plainStr a.1 = true ∧ plainStr a.2 = true := by
      have h := hplain
      simp [plainStore] at h
      exact ⟨h.1.1, h.1.2⟩
    have hplain' : plainStore (b :: tl) = true := by
      have h := hplain
      simp [plainStore] at h ⊢
      exact h.2
    rw [joinEntries]
    rw [parseMembers]
    rw [show (dumpEntry a ++ ',' :: newlineC :: joinEntries (b :: tl))
          ++ newlineC :: rbraceC :: rest
        = spaceC :: spaceC :: spaceC :: spaceC :: quoteC ::
            (a.1 ++ quoteC ::
              (':' :: spaceC :: quoteC ::
                (a.2 ++ quoteC :: ',' :: newlineC ::
                  (joinEntries (b :: tl) ++ newlineC :: rbraceC :: rest))))
      from by simp [dumpEntry]]
    rw [skipWs_ws spaceC (by decide), skipWs_ws spaceC (by decide),
        skipWs_ws spaceC (by decide), skipWs_ws spaceC (by decide),
        skipWs_nonws quoteC (by decide)]
    simp only [if_true]
    rw [takeStr_plain a.1 hp1.1]
    simp only []
    rw [skipWs_nonws ':' (by decide)]
    simp only [if_true]
    rw [parseVal_plainString f2 a.2
        (',' :: newlineC :: (joinEntries (b :: tl) ++ newlineC :: rbraceC :: rest))
        (spaceC :: quoteC ::
          (a.2 ++ quoteC :: ',' :: newlineC ::
            (joinEntries (b :: tl) ++ newlineC :: rbraceC :: rest)))
        hp1.2
        (by rw [skipWs_ws spaceC (by decide), skipWs_nonws quoteC (by decide)])]
    simp only []
    rw [skipWs_nonws ',' (by decide)]
    simp only [if_true]
    have hrec : parseMembers (Nat.succ f2)
        (newlineC :: (joinEntries (b :: tl) ++ newlineC :: rbraceC :: rest))
        = some ((b :: tl).map (fun kv => (kv.1, Json.str kv.2)), rest) := by
      rw [parseMembers_ws f2 newlineC (by decide)]
      exact ih b rest (Nat.succ f2) (by simpa using hfuel) hplain'
    rw [hrec]
    simp only [Option.map_some', List.map_cons]

/-- C7 counterexample: a backing file holding `[]` — perfectly parseable
JSON, but not an object — makes `load_cooldowns` return the parsed array
itself, not a mapping and not the empty mapping, refuting the claim that
`load()` always returns a mapping. -/
theorem load_nonmapping_counterexample :
    load_cooldowns (some ('[' :: ']' :: [])) = Json.arr []
    ∧ isMapping (load_cooldowns (some ('[' :: ']' :: []))) = false := by
  constructor <;> rfl

/-- C7 amended: `load_cooldowns` is a total function of the file state —
it never raises; a missing file or unparseable contents yield the empty
mapping; but when the contents parse as a JSON document the parsed value
is returned unchanged, so the result is a mapping only when the stored
document is an object (the empty mapping otherwise being returned for
missing/corrupt stores). -/
theorem load_cooldowns_total_spec (file : Option (List Char)) :
    (file = none → load_cooldowns file = Json.obj [])
    ∧ (∀ s, file = some s → json_loads s = none → load_cooldowns file = Json.obj [])
    ∧ (∀ s j, file = some s → json_loads s = some j → load_cooldowns file = j)
    ∧ (load_cooldowns file = Json.obj []
       ∨ ∃ s j, file = some s ∧ json_loads s = some j ∧ load_cooldowns file = j) := by
  refine ⟨?_, ?_, ?_, ?_⟩
  · intro h
    rw [h]
    rfl
  · intro s hs hp
    rw [hs]
    simp [load_cooldowns, hp]
  · intro s j hs hp
    rw [hs]
    simp [load_cooldowns, hp]
  · cases file with
    | none => exact Or.inl rfl
    | some s =>
      cases hp : json_loads s with
      | none => exact Or.inl (by simp [load_cooldowns, hp])
      | some j => exact Or.inr ⟨s, j, rfl, hp, by simp [load_cooldowns, hp]⟩

theorem load_cooldowns_total_spec_witness :
    load_cooldowns none = Json.obj [] :=
  (load_cooldowns_total_spec none).1 rfl

/-- C8: saving a mapping (of escape-free symbol and timestamp strings,
which is every mapping the bot produces) fully overwrites whatever the
file held before — the resulting file state does not depend on the prior
state at all — and a subsequent `load_cooldowns` parses the dumped text
back to exactly the saved mapping. -/
theorem save_load_roundtrip (prior : Option (List Char))
    (m : List (List Char × List Char)) (hplain : plainStore m = true) :
    load_cooldowns (save_cooldowns prior m) = storeAsJson m
    ∧ save_cooldowns prior m = save_cooldowns none m := by
  refine ⟨?_, rfl⟩
  cases m with
  | nil => rfl
  | cons a l =>
    have hJE := joinEntries_length_ge a l
    have hdump : json_dump_store (a :: l)
        = lbraceC :: newlineC :: (joinEntries (a :: l) ++ [newlineC, rbraceC]) := by
      simp [json_dump_store]
    have hlen : (json_dump_store (a :: l)).length
        = (joinEntries (a :: l)).length + 4 := by
      rw [hdump]
      simp
    have hshape : ∃ t, joinEntries (a :: l) ++ [newlineC, rbraceC]
        = spaceC :: spaceC :: spaceC :: spaceC :: quoteC :: t := by
      cases l with
      | nil =>
        exact ⟨a.1 ++ quoteC :: ':' :: spaceC :: quoteC ::
          (a.2 ++ [quoteC, newlineC, rbraceC]), by simp [joinEntries, dumpEntry]⟩
      | cons b tl =>
        exact ⟨a.1 ++ quoteC :: ':' :: spaceC :: quoteC ::
          (a.2 ++ quoteC :: ',' :: newlineC ::
            (joinEntries (b :: tl) ++ [newlineC, rbraceC])),
          by simp [joinEntries, dumpEntry]⟩
    obtain ⟨t, ht⟩ := hshape
    have hq : skipWs (joinEntries (a :: l) ++ [newlineC, rbraceC]) = quoteC :: t := by
      rw [ht, skipWs_ws spaceC (by decide), skipWs_ws spaceC (by decide),
          skipWs_ws spaceC (by decide), skipWs_ws spaceC (by decide),
          skipWs_nonws quoteC (by decide)]
    obtain ⟨f1, hf1⟩ : ∃ f1, (json_dump_store (a :: l)).length = Nat.succ f1 :=
      ⟨(json_dump_store (a :: l)).length - 1, by omega⟩
    have hmem : parseMembers (json_dump_store (a :: l)).length
        (joinEntries (a :: l) ++ newlineC :: rbraceC :: ([] : List Char))
        = some ((a :: l).map (fun kv => (kv.1, Json.str kv.2)), []) := by
      apply parseMembers_dump l a [] _ ?_ hplain
      omega
    have hmemq : parseMembers (json_dump_store (a :: l)).length (quoteC :: t)
        = some ((a :: l).map (fun kv => (kv.1, Json.str kv.2)), []) := by
      rw [← hq, hf1, parseMembers_skipWs, ← hf1]
      simpa using hmem
    have hval : parseVal ((json_dump_store (a :: l)).length + 1)
        (json_dump_store (a :: l))
        = some (storeAsJson (a :: l), []) := by
      rw [show (json_dump_store (a :: l)).length + 1
          = Nat.succ (json_dump_store (a :: l)).length from rfl]
      rw [parseVal]
      rw [hdump]
      rw [skipWs_nonws lbraceC (by decide)]
      simp only []
      rw [if_neg (show ¬ lbraceC = quoteC from by decide)]
      simp only [if_true]
      rw [skipWs_ws newlineC (by decide), hq]
      simp only []
      rw [if_neg (show ¬ quoteC = rbraceC from by decide)]
      rw [← hdump, hmemq]
      simp [storeAsJson]
    have hloads : json_loads (json_dump_store (a :: l))
        = some (storeAsJson (a :: l)) := by
      unfold json_loads
      rw [hval]
      simp [skipWs]
    show load_cooldowns (some (json_dump_store (a :: l))) = storeAsJson (a :: l)
    simp [load_cooldowns, hloads]

theorem save_load_roundtrip_witness :
    plainStore [("HUSDT".toList, "2026-10-12T00:00:00+00:00".toList)] = true
    ∧ load_cooldowns (save_cooldowns none
        [("HUSDT".toList, "2026-10-12T00:00:00+00:00".toList)])
      = storeAsJson [("HUSDT".toList, "2026-10-12T00:00:00+00:00".toList)] := by
  refine ⟨by decide, ?_⟩
  exact (save_load_roundtrip none
    [("HUSDT".toList, "2026-10-12T00:00:00+00:00".toList)] (by decide)).1

end CrptShortFade
